import Mathlib

/-!
Verification of the ultrafiltration particle-simulation engine.

The embedding translates the core of the simulation component
(src/unnamed/part_002): the per-frame `step` over the particle
population, the membrane permeation decision, the fouling/health
decay, the flux metric, and the backwash action.  JavaScript numbers
are modelled as rationals; each `Math.random()` call is modelled as an
explicit draw (nominally in [0,1)) supplied per particle through a
`Draws` record.  The geometric constants imported from `lib/constants`
(VESSEL_X, VESSEL_Y, VESSEL_W, VESSEL_H, MEMBRANE_X) are not part of
the given sources, so the development is parametric in a `Geom` record
holding them.
-/

namespace UltraFiltration

/-- Geometric constants imported by the component from `lib/constants`
(values not part of the given sources, hence kept parametric). -/
structure Geom where
  VESSEL_X : ℚ
  VESSEL_Y : ℚ
  VESSEL_W : ℚ
  VESSEL_H : ℚ
  MEMBRANE_X : ℚ
deriving DecidableEq, Repr

/-- The five control parameters read by the simulation loop. -/
structure Params where
  pressure : ℚ
  poreSize : ℚ
  feedConcentration : ℚ
  meanSoluteSize : ℚ
  stirRate : ℚ
deriving DecidableEq, Repr

/-- `type ParticleRegion = "feed" | "retentate" | "permeate"`. -/
inductive ParticleRegion where
  | feed
  | retentate
  | permeate
deriving DecidableEq, Repr, BEq

/-- `interface Particle` of the source. -/
structure Particle where
  id : ℕ
  x : ℚ
  y : ℚ
  size : ℚ
  vx : ℚ
  vy : ℚ
  region : ParticleRegion
deriving DecidableEq, Repr

/-- `clamp(v, min, max) = Math.max(min, Math.min(max, v))`. -/
def clamp (v lo hi : ℚ) : ℚ := max lo (min hi v)

/-- The `Math.random()` draws consumed while updating one particle:
`rMix` is the vertical-mixing draw taken for every particle, `r1` and
`r2` are the draws taken inside the region-specific branch (feed
jitter; retentate x/y walk; permeate recycle x/y). -/
structure Draws where
  rMix : ℚ
  r1 : ℚ
  r2 : ℚ
deriving DecidableEq, Repr

/-- The horizontal increment of the retentate random walk,
`(Math.random() - 0.3) * dt * 25` (source line 139). -/
def retentateDx (r dt : ℚ) : ℚ := (r - 3/10) * dt * 25

/-- Mean of `retentateDx · dt` over a uniform draw on [0,1): the
increment is affine in the draw, so its mean is the midpoint value
`(retentateDx 0 dt + retentateDx 1 dt) / 2`. -/
def retentateMeanDx (dt : ℚ) : ℚ := (retentateDx 0 dt + retentateDx 1 dt) / 2

/-- The final hard horizontal clamp of the step function
(source lines 161-165): two sequential `if` assignments against
`leftLimit = VESSEL_X + 10` and `rightLimit = VESSEL_X + VESSEL_W - 10`. -/
def hardClampX (g : Geom) (x : ℚ) : ℚ :=
  let x1 := if x < g.VESSEL_X + 10 then g.VESSEL_X + 10 else x
  if x1 > g.VESSEL_X + g.VESSEL_W - 10 then g.VESSEL_X + g.VESSEL_W - 10 else x1

/-- Per-particle update of the step function before the final hard
horizontal clamp (source lines 101-159): vertical stirring jitter,
vertical clamp, then the region-specific branch. -/
def stepParticleCore (g : Geom) (pm : Params) (dt : ℚ) (d : Draws) (p : Particle) :
    Particle :=
  let mixStrength := pm.stirRate / 140
  let yM := p.y + (d.rMix - 1/2) * mixStrength * 12
  let topLimit := g.VESSEL_Y + 20
  let bottomLimit := g.VESSEL_Y + g.VESSEL_H - 20
  let yA := if yM < topLimit then topLimit else yM
  let yB := if yA > bottomLimit then bottomLimit else yA
  match p.region with
  | ParticleRegion.feed =>
    let pressureForce := pm.pressure / 70
    let vx1 := p.vx + (1/2 + pressureForce) * dt
    let x1 := p.x + vx1
    let x2 := x1 + (d.r1 - 1/2) * dt * 8
    if x2 ≥ g.MEMBRANE_X - 8 then
      if p.size < pm.poreSize then
        { p with x := g.MEMBRANE_X + 16, y := yB,
                 vx := 20 * pressureForce, region := ParticleRegion.permeate }
      else
        { p with x := g.MEMBRANE_X - 10, y := yB,
                 vx := -vx1 * (3/10), region := ParticleRegion.retentate }
    else
      { p with x := x2, y := yB, vx := vx1 }
  | ParticleRegion.retentate =>
    let x1 := p.x + retentateDx d.r1 dt
    let y1 := yB + (d.r2 - 1/2) * dt * 16
    { p with x := clamp x1 (g.VESSEL_X + 20) (g.MEMBRANE_X - 12), y := y1 }
  | ParticleRegion.permeate =>
    let pressureForce := pm.pressure / 80
    let vx1 := p.vx + (2/5 + pressureForce) * dt
    let vy1 := p.vy + (3/20) * dt
    let x1 := p.x + vx1 * dt * 12
    let y1 := yB + vy1 * dt * 10
    if x1 > g.VESSEL_X + g.VESSEL_W - 20 then
      { p with x := g.VESSEL_X + 20 + d.r1 * 40,
               y := g.VESSEL_Y + 30 + d.r2 * (g.VESSEL_H - 80),
               vx := 0, vy := 0, region := ParticleRegion.feed }
    else
      { p with x := x1, y := y1, vx := vx1, vy := vy1 }

/-- Complete per-particle update: region logic followed by the hard
horizontal clamp. -/
def stepParticle (g : Geom) (pm : Params) (dt : ℚ) (d : Draws) (p : Particle) :
    Particle :=
  let q := stepParticleCore g pm dt d p
  { q with x := hardClampX g q.x }

/-- Membrane fouling update of one step (source lines 92-98):
`clamp(h - (pressure/2200 + feedConcentration/9000) * dt, 0, 100)`. -/
def healthUpdate (pm : Params) (dt : ℚ) (h : ℚ) : ℚ :=
  clamp (h - (pm.pressure / 2200 + pm.feedConcentration / 9000) * dt) 0 100

/-- The simulation state threaded through the per-frame loop. -/
structure SimState where
  particles : List Particle
  time : ℚ
  health : ℚ
deriving DecidableEq, Repr

/-- One invocation of the per-frame `step` (source lines 86-171):
updates membrane health, maps every particle through the per-particle
update (draw `rand i` feeding particle `i`), and advances elapsed time
by `dt`. -/
def step (g : Geom) (pm : Params) (dt : ℚ) (rand : ℕ → Draws) (s : SimState) :
    SimState :=
  { particles := s.particles.enum.map fun ip => stepParticle g pm dt (rand ip.1) ip.2
    time := s.time + dt
    health := healthUpdate pm dt s.health }

/-- `permeateCount = particles.filter(p => p.region === "permeate").length`. -/
def permeateCount (ps : List Particle) : ℕ :=
  (ps.filter fun p => p.region == ParticleRegion.permeate).length

/-- Rounding to two decimal places, `Number(x.toFixed(2))`. -/
def toFixed2 (q : ℚ) : ℚ := (round (q * 100) : ℚ) / 100

/-- `baseFlux = (permeateCount * (pressure / 50)) / (1 + time)`. -/
def baseFluxOf (pm : Params) (s : SimState) : ℚ :=
  (permeateCount s.particles : ℚ) * (pm.pressure / 50) / (1 + s.time)

/-- The flux product before rounding,
`baseFlux * (0.4 + membraneHealth / 100)`. -/
def fluxUnrounded (pm : Params) (s : SimState) : ℚ :=
  baseFluxOf pm s * (2/5 + s.health / 100)

/-- The displayed flux, `Number((baseFlux * (0.4 + health/100)).toFixed(2))`. -/
def fluxOf (pm : Params) (s : SimState) : ℚ := toFixed2 (fluxUnrounded pm s)

/-- The flux formula exactly as the specification words it (written
from the spec text, to be compared with `fluxOf` taken from the
source): permeate count times pressure/50 over (1 + elapsed time),
scaled by (0.4 + health/100), rounded to two decimals. -/
def fluxSpecFormula (pm : Params) (s : SimState) : ℚ :=
  toFixed2 ((((s.particles.filter fun p => p.region == ParticleRegion.permeate).length : ℚ)
      * (pm.pressure / 50) / (1 + s.time)) * (2/5 + s.health / 100))

/-- `handleBackwash` (source lines 201-216): health gains 25 (clamped
to [0,100]); every retentate particle moves 40 left and returns to the
feed region; all other particles and the elapsed time are untouched. -/
def backwash (s : SimState) : SimState :=
  { particles := s.particles.map fun p =>
      if p.region = ParticleRegion.retentate then
        { p with x := p.x - 40, region := ParticleRegion.feed }
      else p
    time := s.time
    health := clamp (s.health + 25) 0 100 }

end UltraFiltration

namespace UltraFiltration

lemma clamp_bounds (v lo hi : ℚ) (h : lo ≤ hi) :
    lo ≤ clamp v lo hi ∧ clamp v lo hi ≤ hi :=
  ⟨le_max_left _ _, max_le h (min_le_left _ _)⟩

lemma hardClampX_bounds (g : Geom) (x : ℚ) (hw : (20:ℚ) ≤ g.VESSEL_W) :
    g.VESSEL_X + 10 ≤ hardClampX g x ∧ hardClampX g x ≤ g.VESSEL_X + g.VESSEL_W - 10 := by
  simp only [hardClampX]
  split_ifs <;> constructor <;> linarith

lemma hardClampX_id (g : Geom) (x : ℚ)
    (h1 : g.VESSEL_X + 10 ≤ x) (h2 : x ≤ g.VESSEL_X + g.VESSEL_W - 10) :
    hardClampX g x = x := by
  simp only [hardClampX]
  rw [if_neg (not_lt.mpr h1), if_neg (not_lt.mpr h2)]

lemma toFixed2_nonneg (q : ℚ) (h : 0 ≤ q) : 0 ≤ toFixed2 q := by
  have hr : (0:ℤ) ≤ round (q * 100) := by
    rw [round_eq]
    exact Int.floor_nonneg.mpr (by linarith)
  have : (0:ℚ) ≤ (round (q * 100) : ℚ) := by exact_mod_cast hr
  unfold toFixed2
  positivity

/-- C1: the permeation decision of the step function is deterministic in
size and pore size: a feed particle whose updated horizontal position
reaches within 8 units of the membrane transitions to permeate
(x = MEMBRANE_X + 16, vx = 20 * pressure/70) when size < poreSize, and
to retentate (x = MEMBRANE_X - 10, vx multiplied by -0.3) otherwise. -/
theorem permeation_decision (g : Geom) (pm : Params) (dt : ℚ) (d : Draws) (p : Particle)
    (hreg : p.region = ParticleRegion.feed)
    (hcross : g.MEMBRANE_X - 8 ≤
      p.x + (p.vx + (1/2 + pm.pressure / 70) * dt) + (d.r1 - 1/2) * dt * 8)
    (hg1 : g.VESSEL_X + 10 ≤ g.MEMBRANE_X - 10)
    (hg2 : g.MEMBRANE_X + 16 ≤ g.VESSEL_X + g.VESSEL_W - 10) :
    (p.size < pm.poreSize →
      (stepParticle g pm dt d p).region = ParticleRegion.permeate ∧
      (stepParticle g pm dt d p).x = g.MEMBRANE_X + 16 ∧
      (stepParticle g pm dt d p).vx = 20 * (pm.pressure / 70)) ∧
    (¬ p.size < pm.poreSize →
      (stepParticle g pm dt d p).region = ParticleRegion.retentate ∧
      (stepParticle g pm dt d p).x = g.MEMBRANE_X - 10 ∧
      (stepParticle g pm dt d p).vx = -(p.vx + (1/2 + pm.pressure / 70) * dt) * (3/10)) := by
  obtain ⟨pid, px, py, psize, pvx, pvy, preg⟩ := p
  simp only [] at hreg hcross
  subst hreg
  simp only [stepParticle, stepParticleCore]
  rw [if_pos hcross]
  constructor
  · intro hsize
    rw [if_pos hsize]
    refine ⟨rfl, ?_, rfl⟩
    exact hardClampX_id g _ (by linarith) (by linarith)
  · intro hsize
    rw [if_neg hsize]
    refine ⟨rfl, ?_, rfl⟩
    exact hardClampX_id g _ (by linarith) (by linarith)

theorem permeation_decision_witness :
    (stepParticle ⟨40, 40, 860, 420, 460⟩ ⟨40, 10, 300, 10, 40⟩ 1 ⟨1/2, 1/2, 1/2⟩
        ⟨0, 455, 200, 5, 0, 0, ParticleRegion.feed⟩).region = ParticleRegion.permeate ∧
    (stepParticle ⟨40, 40, 860, 420, 460⟩ ⟨40, 10, 300, 10, 40⟩ 1 ⟨1/2, 1/2, 1/2⟩
        ⟨0, 455, 200, 5, 0, 0, ParticleRegion.feed⟩).x = 460 + 16 ∧
    (stepParticle ⟨40, 40, 860, 420, 460⟩ ⟨40, 10, 300, 10, 40⟩ 1 ⟨1/2, 1/2, 1/2⟩
        ⟨0, 455, 200, 5, 0, 0, ParticleRegion.feed⟩).vx = 20 * (40 / 70) :=
  (permeation_decision ⟨40, 40, 860, 420, 460⟩ ⟨40, 10, 300, 10, 40⟩ 1 ⟨1/2, 1/2, 1/2⟩
    ⟨0, 455, 200, 5, 0, 0, ParticleRegion.feed⟩ rfl (by norm_num) (by norm_num)
    (by norm_num)).1 (by norm_num)


/-- C2 (amended): after one step every particle's x lies within the hard
horizontal clamp limits [VESSEL_X + 10, VESSEL_X + VESSEL_W - 10]
(for a vessel at least 20 wide); the claim's vertical half fails because
the vertical clamp runs before the region logic. -/
theorem step_x_bounds (g : Geom) (pm : Params) (dt : ℚ) (rand : ℕ → Draws) (s : SimState)
    (hw : (20:ℚ) ≤ g.VESSEL_W) :
    ∀ q ∈ (step g pm dt rand s).particles,
      g.VESSEL_X + 10 ≤ q.x ∧ q.x ≤ g.VESSEL_X + g.VESSEL_W - 10 := by
  intro q hq
  simp only [step, List.mem_map] at hq
  obtain ⟨ip, hip, rfl⟩ := hq
  exact hardClampX_bounds g _ hw

theorem step_x_bounds_witness :
    (40:ℚ) + 10 ≤ (Particle.mk 0 (1415/14) 200 10 (15/14) 0 ParticleRegion.feed).x ∧
    (Particle.mk 0 (1415/14) 200 10 (15/14) 0 ParticleRegion.feed).x ≤ 40 + 860 - 10 := by
  have hmem : Particle.mk 0 (1415/14) 200 10 (15/14) 0 ParticleRegion.feed ∈
      (step ⟨40, 40, 860, 420, 460⟩ ⟨40, 10, 300, 10, 40⟩ 1 (fun _ => ⟨1/2, 1/2, 1/2⟩)
        ⟨[⟨0, 100, 200, 10, 0, 0, ParticleRegion.feed⟩], 0, 100⟩).particles := by
    norm_num [step, stepParticle, stepParticleCore, hardClampX, clamp,
      List.enum, List.enumFrom, Particle.mk.injEq]
  exact step_x_bounds ⟨40, 40, 860, 420, 460⟩ ⟨40, 10, 300, 10, 40⟩ 1 (fun _ => ⟨1/2, 1/2, 1/2⟩)
    ⟨[⟨0, 100, 200, 10, 0, 0, ParticleRegion.feed⟩], 0, 100⟩ (by norm_num) _ hmem

theorem step_y_escape_cex :
    ¬ ∀ q ∈ (step ⟨40, 40, 860, 420, 460⟩ ⟨40, 10, 300, 10, 40⟩ 10 (fun _ => ⟨1/2, 1/2, 9/10⟩)
        ⟨[⟨0, 100, 440, 10, 0, 0, ParticleRegion.retentate⟩], 0, 100⟩).particles,
      q.y ≤ (40:ℚ) + 420 - 20 := by
  norm_num [step, stepParticle, stepParticleCore, hardClampX, clamp, retentateDx,
    List.enum, List.enumFrom]

/-- C3: the per-step membrane health update is exactly
clamp(health - (pressure/2200 + feedConcentration/9000) * dt, 0, 100),
and for health in [0,100] with non-negative pressure, concentration and
dt the health never increases across a step. -/
theorem health_decay (g : Geom) (pm : Params) (dt : ℚ) (rand : ℕ → Draws) (s : SimState) :
    (step g pm dt rand s).health =
      clamp (s.health - (pm.pressure / 2200 + pm.feedConcentration / 9000) * dt) 0 100 ∧
    (0 ≤ s.health → s.health ≤ 100 → 0 ≤ pm.pressure → 0 ≤ pm.feedConcentration → 0 ≤ dt →
      (step g pm dt rand s).health ≤ s.health) := by
  refine ⟨rfl, ?_⟩
  intro h0 h1 hp hc hd
  have hdec : 0 ≤ (pm.pressure / 2200 + pm.feedConcentration / 9000) * dt := by positivity
  show healthUpdate pm dt s.health ≤ s.health
  simp only [healthUpdate, clamp]
  exact max_le h0 (le_trans (min_le_right _ _) (by linarith))

theorem health_decay_witness :
    (step ⟨40, 40, 860, 420, 460⟩ ⟨40, 10, 300, 10, 40⟩ 1 (fun _ => ⟨1/2, 1/2, 1/2⟩)
      ⟨[], 0, 100⟩).health ≤ (100:ℚ) :=
  (health_decay ⟨40, 40, 860, 420, 460⟩ ⟨40, 10, 300, 10, 40⟩ 1 (fun _ => ⟨1/2, 1/2, 1/2⟩)
    ⟨[], 0, 100⟩).2 (by norm_num) (by norm_num) (by norm_num) (by norm_num) (by norm_num)



/-- C4: the derived flux equals
round2((permeateCount * (pressure/50) / (1 + elapsedTime)) * (0.4 + health/100))
where permeateCount counts the particles in the permeate region; the
computation reads only the population, pressure, health and elapsed time. -/
theorem flux_formula (pm : Params) (s : SimState)
    (hp : 0 ≤ pm.pressure) (hh : 0 ≤ s.health) (ht : 0 ≤ s.time) :
    fluxOf pm s = fluxSpecFormula pm s ∧
    permeateCount s.particles =
      (s.particles.filter fun p => p.region == ParticleRegion.permeate).length :=
  ⟨rfl, rfl⟩

theorem flux_formula_witness :
    fluxOf ⟨40, 10, 300, 10, 40⟩ ⟨[⟨0, 500, 200, 10, 0, 0, ParticleRegion.permeate⟩], 1, 80⟩ =
      fluxSpecFormula ⟨40, 10, 300, 10, 40⟩
        ⟨[⟨0, 500, 200, 10, 0, 0, ParticleRegion.permeate⟩], 1, 80⟩ :=
  (flux_formula ⟨40, 10, 300, 10, 40⟩ ⟨[⟨0, 500, 200, 10, 0, 0, ParticleRegion.permeate⟩], 1, 80⟩
    (by norm_num) (by norm_num) (by norm_num)).1

theorem flux_forty_percent_cex :
    fluxOf ⟨50, 10, 300, 10, 40⟩ ⟨[⟨0, 500, 200, 10, 0, 0, ParticleRegion.permeate⟩], 0, 0⟩ ≠
      (2/5) * fluxOf ⟨50, 10, 300, 10, 40⟩
        ⟨[⟨0, 500, 200, 10, 0, 0, ParticleRegion.permeate⟩], 0, 100⟩ := by
  simp only [show (ParticleRegion.permeate == ParticleRegion.permeate) = true from rfl,
    fluxOf, fluxUnrounded, baseFluxOf, permeateCount, toFixed2, round_eq, List.filter]
  norm_num

/-- C5 (amended): the displayed flux is non-negative for non-negative
pressure, elapsed time and health; at membraneHealth = 0 the pre-rounding
flux equals 40% of the health-unadjusted base flux, which is 2/7 (not
40%) of the pre-rounding flux at membraneHealth = 100. -/
theorem flux_nonneg_and_fouling_scale (pm : Params) (s : SimState)
    (hp : 0 ≤ pm.pressure) (ht : 0 ≤ s.time) (hh : 0 ≤ s.health) :
    0 ≤ fluxOf pm s ∧
    fluxUnrounded pm { s with health := 0 } = (2/5) * baseFluxOf pm s ∧
    7 * fluxUnrounded pm { s with health := 0 } =
      2 * fluxUnrounded pm { s with health := 100 } := by
  have h1 : (0:ℚ) ≤ (permeateCount s.particles : ℚ) := Nat.cast_nonneg _
  have h2 : (0:ℚ) ≤ pm.pressure / 50 := by positivity
  have h3 : (0:ℚ) < 1 + s.time := by linarith
  have hbase : 0 ≤ baseFluxOf pm s := div_nonneg (mul_nonneg h1 h2) h3.le
  have hfl : 0 ≤ fluxUnrounded pm s :=
    mul_nonneg hbase (add_nonneg (by norm_num) (by positivity))
  have hb0 : baseFluxOf pm { s with health := (0:ℚ) } = baseFluxOf pm s := rfl
  have hb100 : baseFluxOf pm { s with health := (100:ℚ) } = baseFluxOf pm s := rfl
  refine ⟨toFixed2_nonneg _ hfl, ?_, ?_⟩
  · show baseFluxOf pm { s with health := 0 } * (2/5 + (0:ℚ) / 100) = (2/5) * baseFluxOf pm s
    rw [hb0]; ring
  · show 7 * (baseFluxOf pm { s with health := 0 } * (2/5 + (0:ℚ) / 100)) =
      2 * (baseFluxOf pm { s with health := 100 } * (2/5 + (100:ℚ) / 100))
    rw [hb0, hb100]; ring

theorem flux_nonneg_witness :
    (0:ℚ) ≤ fluxOf ⟨50, 10, 300, 10, 40⟩
      ⟨[⟨0, 500, 200, 10, 0, 0, ParticleRegion.permeate⟩], 2, 60⟩ :=
  (flux_nonneg_and_fouling_scale ⟨50, 10, 300, 10, 40⟩
    ⟨[⟨0, 500, 200, 10, 0, 0, ParticleRegion.permeate⟩], 2, 60⟩
    (by norm_num) (by norm_num) (by norm_num)).1

/-- C6 (amended): a step with dt = 0 leaves membrane health (within
[0,100]) and elapsed time unchanged; it is not a full no-op on the
particles, because the horizontal advance by accumulated velocity and
the stirring jitter are applied per frame rather than scaled by dt. -/
theorem step_dt_zero_health_time (g : Geom) (pm : Params) (rand : ℕ → Draws) (s : SimState)
    (h0 : 0 ≤ s.health) (h1 : s.health ≤ 100) :
    (step g pm 0 rand s).health = s.health ∧ (step g pm 0 rand s).time = s.time := by
  constructor
  · show healthUpdate pm 0 s.health = s.health
    simp only [healthUpdate, clamp, mul_zero, sub_zero]
    rw [min_eq_right h1, max_eq_right h0]
  · show s.time + 0 = s.time
    rw [add_zero]

theorem step_dt_zero_health_time_witness :
    (step ⟨40, 40, 860, 420, 460⟩ ⟨40, 10, 300, 10, 40⟩ 0 (fun _ => ⟨1/2, 1/2, 1/2⟩)
      ⟨[⟨0, 100, 200, 10, 5, 0, ParticleRegion.feed⟩], 3, 90⟩).health = (90:ℚ) ∧
    (step ⟨40, 40, 860, 420, 460⟩ ⟨40, 10, 300, 10, 40⟩ 0 (fun _ => ⟨1/2, 1/2, 1/2⟩)
      ⟨[⟨0, 100, 200, 10, 5, 0, ParticleRegion.feed⟩], 3, 90⟩).time = (3:ℚ) :=
  step_dt_zero_health_time ⟨40, 40, 860, 420, 460⟩ ⟨40, 10, 300, 10, 40⟩
    (fun _ => ⟨1/2, 1/2, 1/2⟩) ⟨[⟨0, 100, 200, 10, 5, 0, ParticleRegion.feed⟩], 3, 90⟩
    (by norm_num) (by norm_num)

theorem step_dt_zero_cex :
    (step ⟨40, 40, 860, 420, 460⟩ ⟨40, 10, 300, 10, 40⟩ 0 (fun _ => ⟨1/2, 1/2, 1/2⟩)
      ⟨[⟨0, 100, 200, 10, 5, 0, ParticleRegion.feed⟩], 0, 100⟩).particles
      ≠ [⟨0, 100, 200, 10, 5, 0, ParticleRegion.feed⟩] := by
  norm_num [step, stepParticle, stepParticleCore, hardClampX, clamp, List.enum, List.enumFrom,
    Particle.mk.injEq]



/-- C7: one step never changes the number of particles; a permeate
particle whose advanced x exceeds the right-side recycle limit is not
removed but reset to a randomized feed-side position
(VESSEL_X + 20 + draw * 40) with zero velocity and region feed. -/
theorem step_population (g : Geom) (pm : Params) (dt : ℚ) (rand : ℕ → Draws) (s : SimState) :
    (step g pm dt rand s).particles.length = s.particles.length ∧
    (∀ (d : Draws) (p : Particle), p.region = ParticleRegion.permeate →
      g.VESSEL_X + g.VESSEL_W - 20 < p.x + (p.vx + (2/5 + pm.pressure / 80) * dt) * dt * 12 →
      0 ≤ d.r1 → d.r1 < 1 → (70:ℚ) ≤ g.VESSEL_W →
      (stepParticle g pm dt d p).region = ParticleRegion.feed ∧
      (stepParticle g pm dt d p).x = g.VESSEL_X + 20 + d.r1 * 40 ∧
      (stepParticle g pm dt d p).vx = 0 ∧
      (stepParticle g pm dt d p).vy = 0) := by
  constructor
  · simp [step]
  · intro d p hreg hover hr0 hr1 hw
    obtain ⟨pid, px, py, psize, pvx, pvy, preg⟩ := p
    simp only [] at hreg hover
    subst hreg
    simp only [stepParticle, stepParticleCore]
    rw [if_pos hover]
    refine ⟨rfl, ?_, rfl, rfl⟩
    have hx1 : g.VESSEL_X + 10 ≤ g.VESSEL_X + 20 + d.r1 * 40 := by linarith
    have hx2 : g.VESSEL_X + 20 + d.r1 * 40 ≤ g.VESSEL_X + g.VESSEL_W - 10 := by linarith
    exact hardClampX_id g _ hx1 hx2

theorem step_population_witness :
    (step ⟨40, 40, 860, 420, 460⟩ ⟨40, 10, 300, 10, 40⟩ 1 (fun _ => ⟨1/2, 1/2, 1/2⟩)
      ⟨[⟨0, 880, 200, 10, 10, 0, ParticleRegion.permeate⟩], 0, 100⟩).particles.length = 1 ∧
    (stepParticle ⟨40, 40, 860, 420, 460⟩ ⟨40, 10, 300, 10, 40⟩ 1 ⟨1/2, 1/2, 1/2⟩
      ⟨0, 880, 200, 10, 10, 0, ParticleRegion.permeate⟩).region = ParticleRegion.feed ∧
    (stepParticle ⟨40, 40, 860, 420, 460⟩ ⟨40, 10, 300, 10, 40⟩ 1 ⟨1/2, 1/2, 1/2⟩
      ⟨0, 880, 200, 10, 10, 0, ParticleRegion.permeate⟩).x = 40 + 20 + (1/2) * 40 ∧
    (stepParticle ⟨40, 40, 860, 420, 460⟩ ⟨40, 10, 300, 10, 40⟩ 1 ⟨1/2, 1/2, 1/2⟩
      ⟨0, 880, 200, 10, 10, 0, ParticleRegion.permeate⟩).vx = 0 ∧
    (stepParticle ⟨40, 40, 860, 420, 460⟩ ⟨40, 10, 300, 10, 40⟩ 1 ⟨1/2, 1/2, 1/2⟩
      ⟨0, 880, 200, 10, 10, 0, ParticleRegion.permeate⟩).vy = 0 :=
  ⟨(step_population ⟨40, 40, 860, 420, 460⟩ ⟨40, 10, 300, 10, 40⟩ 1 (fun _ => ⟨1/2, 1/2, 1/2⟩)
      ⟨[⟨0, 880, 200, 10, 10, 0, ParticleRegion.permeate⟩], 0, 100⟩).1,
   (step_population ⟨40, 40, 860, 420, 460⟩ ⟨40, 10, 300, 10, 40⟩ 1 (fun _ => ⟨1/2, 1/2, 1/2⟩)
      ⟨[⟨0, 880, 200, 10, 10, 0, ParticleRegion.permeate⟩], 0, 100⟩).2 ⟨1/2, 1/2, 1/2⟩
      ⟨0, 880, 200, 10, 10, 0, ParticleRegion.permeate⟩ rfl (by norm_num) (by norm_num)
      (by norm_num) (by norm_num)⟩

/-- C8: backwash raises health to clamp(health + 25, 0, 100), turns every
retentate particle into a feed particle moved exactly 40 left with all
other fields intact, leaves every other particle untouched, and does not
change elapsed time or the population size. -/
theorem backwash_action (s : SimState) :
    (backwash s).health = clamp (s.health + 25) 0 100 ∧
    (backwash s).time = s.time ∧
    (backwash s).particles.length = s.particles.length ∧
    (∀ i, (hi : i < s.particles.length) →
      ((s.particles[i]).region = ParticleRegion.retentate →
        (backwash s).particles[i]? =
          some { s.particles[i] with x := (s.particles[i]).x - 40, region := ParticleRegion.feed }) ∧
      ((s.particles[i]).region ≠ ParticleRegion.retentate →
        (backwash s).particles[i]? = some (s.particles[i]))) := by
  refine ⟨rfl, rfl, by simp [backwash], ?_⟩
  intro i hi
  constructor
  · intro hreg
    simp [backwash, List.getElem?_map, List.getElem?_eq_getElem hi, if_pos hreg]
  · intro hreg
    simp [backwash, List.getElem?_map, List.getElem?_eq_getElem hi, if_neg hreg]

theorem backwash_action_witness :
    (backwash ⟨[⟨0, 450, 200, 10, 0, 0, ParticleRegion.retentate⟩,
                ⟨1, 450, 210, 11, 0, 0, ParticleRegion.retentate⟩,
                ⟨2, 450, 220, 12, 0, 0, ParticleRegion.retentate⟩,
                ⟨3, 450, 230, 13, 0, 0, ParticleRegion.retentate⟩,
                ⟨4, 450, 240, 14, 0, 0, ParticleRegion.retentate⟩], 2, 50⟩).health =
      clamp ((50:ℚ) + 25) 0 100 ∧
    (backwash ⟨[⟨0, 450, 200, 10, 0, 0, ParticleRegion.retentate⟩,
                ⟨1, 450, 210, 11, 0, 0, ParticleRegion.retentate⟩,
                ⟨2, 450, 220, 12, 0, 0, ParticleRegion.retentate⟩,
                ⟨3, 450, 230, 13, 0, 0, ParticleRegion.retentate⟩,
                ⟨4, 450, 240, 14, 0, 0, ParticleRegion.retentate⟩], 2, 50⟩).particles[0]? =
      some ⟨0, 450 - 40, 200, 10, 0, 0, ParticleRegion.feed⟩ := by
  refine ⟨(backwash_action _).1, ?_⟩
  have h := ((backwash_action ⟨[⟨0, 450, 200, 10, 0, 0, ParticleRegion.retentate⟩,
                ⟨1, 450, 210, 11, 0, 0, ParticleRegion.retentate⟩,
                ⟨2, 450, 220, 12, 0, 0, ParticleRegion.retentate⟩,
                ⟨3, 450, 230, 13, 0, 0, ParticleRegion.retentate⟩,
                ⟨4, 450, 240, 14, 0, 0, ParticleRegion.retentate⟩], 2, 50⟩).2.2.2 0
    (by norm_num)).1 rfl
  exact h



/-- C9: the horizontal retentate increment (r - 0.3) * dt * 25 is affine
in the draw r, its mean over a uniform draw on [0,1) is +5 * dt — strictly
positive for dt > 0, i.e. rightward-biased, contrary to the leftward bias
announced by the code's own comment — while the post-update x is indeed
confined to [VESSEL_X + 20, MEMBRANE_X - 12]. -/
theorem retentate_drift_and_confinement :
    (∀ r dt : ℚ, retentateDx r dt = (1 - r) * retentateDx 0 dt + r * retentateDx 1 dt) ∧
    (∀ dt : ℚ, 0 < dt → retentateMeanDx dt = 5 * dt ∧ 0 < retentateMeanDx dt) ∧
    (∀ (g : Geom) (pm : Params) (dt : ℚ) (d : Draws) (p : Particle),
      p.region = ParticleRegion.retentate →
      g.VESSEL_X + 20 ≤ g.MEMBRANE_X - 12 →
      g.MEMBRANE_X - 12 ≤ g.VESSEL_X + g.VESSEL_W - 10 →
      g.VESSEL_X + 20 ≤ (stepParticle g pm dt d p).x ∧
      (stepParticle g pm dt d p).x ≤ g.MEMBRANE_X - 12) := by
  refine ⟨?_, ?_, ?_⟩
  · intro r dt
    simp only [retentateDx]
    ring
  · intro dt hdt
    have hm : retentateMeanDx dt = 5 * dt := by
      simp only [retentateMeanDx, retentateDx]
      ring
    exact ⟨hm, by rw [hm]; linarith⟩
  · intro g pm dt d p hreg hg1 hg2
    obtain ⟨pid, px, py, psize, pvx, pvy, preg⟩ := p
    simp only [] at hreg
    subst hreg
    simp only [stepParticle, stepParticleCore]
    have hcb := clamp_bounds (px + retentateDx d.r1 dt) (g.VESSEL_X + 20) (g.MEMBRANE_X - 12) hg1
    have hid := hardClampX_id g (clamp (px + retentateDx d.r1 dt) (g.VESSEL_X + 20)
      (g.MEMBRANE_X - 12)) (by linarith [hcb.1]) (by linarith [hcb.2])
    rw [hid]
    exact hcb

theorem retentate_drift_witness :
    retentateMeanDx 1 = 5 * 1 ∧ (0:ℚ) < retentateMeanDx 1 ∧
    (40:ℚ) + 20 ≤ (stepParticle ⟨40, 40, 860, 420, 460⟩ ⟨40, 10, 300, 10, 40⟩ 1 ⟨1/2, 99/100, 1/2⟩
      ⟨0, 445, 200, 12, 0, 0, ParticleRegion.retentate⟩).x ∧
    (stepParticle ⟨40, 40, 860, 420, 460⟩ ⟨40, 10, 300, 10, 40⟩ 1 ⟨1/2, 99/100, 1/2⟩
      ⟨0, 445, 200, 12, 0, 0, ParticleRegion.retentate⟩).x ≤ 460 - 12 :=
  ⟨(retentate_drift_and_confinement.2.1 1 (by norm_num)).1,
   (retentate_drift_and_confinement.2.1 1 (by norm_num)).2,
   (retentate_drift_and_confinement.2.2 ⟨40, 40, 860, 420, 460⟩ ⟨40, 10, 300, 10, 40⟩ 1
      ⟨1/2, 99/100, 1/2⟩ ⟨0, 445, 200, 12, 0, 0, ParticleRegion.retentate⟩ rfl
      (by norm_num) (by norm_num)).1,
   (retentate_drift_and_confinement.2.2 ⟨40, 40, 860, 420, 460⟩ ⟨40, 10, 300, 10, 40⟩ 1
      ⟨1/2, 99/100, 1/2⟩ ⟨0, 445, 200, 12, 0, 0, ParticleRegion.retentate⟩ rfl
      (by norm_num) (by norm_num)).2⟩

/-- C10: backwash performs no position clamping — a retentate particle at
x < VESSEL_X + 50 ends at exactly x - 40 < VESSEL_X + 10, outside the hard
horizontal bounds that the step function enforces. -/
theorem backwash_unclamped (g : Geom) (s : SimState) (i : ℕ) (hi : i < s.particles.length)
    (hreg : (s.particles[i]).region = ParticleRegion.retentate)
    (hx : (s.particles[i]).x < g.VESSEL_X + 50) :
    (backwash s).particles[i]? =
      some { s.particles[i] with x := (s.particles[i]).x - 40, region := ParticleRegion.feed } ∧
    (s.particles[i]).x - 40 < g.VESSEL_X + 10 := by
  constructor
  · simp [backwash, List.getElem?_map, List.getElem?_eq_getElem hi, if_pos hreg]
  · linarith

theorem backwash_unclamped_witness :
    (backwash ⟨[⟨0, 60, 200, 10, 0, 0, ParticleRegion.retentate⟩], 0, 50⟩).particles[0]? =
      some ⟨0, 60 - 40, 200, 10, 0, 0, ParticleRegion.feed⟩ ∧
    (60:ℚ) - 40 < 40 + 10 := by
  have h := backwash_unclamped ⟨40, 40, 860, 420, 460⟩
    ⟨[⟨0, 60, 200, 10, 0, 0, ParticleRegion.retentate⟩], 0, 50⟩ 0 (by norm_num) rfl
    (by norm_num)
  exact h


end UltraFiltration
